import Mathlib

/-!
Verification development for the order-status change-history engine:
structural diff over nested JSON-like documents, an append-only persisted
history log, and a read-time projection (filter/translate/redact).
-/

/-- A JSON-like document: scalar, ordered sequence, or mapping given as an
ordered association list (Python dicts preserve insertion order). -/
inductive Json where
  | null : Json
  | bool (b : Bool) : Json
  | num (n : Int) : Json
  | str (s : String) : Json
  | arr (xs : List Json) : Json
  | obj (kvs : List (String × Json)) : Json

/-- Fuel-bounded deep structural equality on documents (Python ==): value
equality on scalars, length plus elementwise on sequences, and key plus
elementwise on mappings.  The fuel only needs to exceed the nesting depth
of the first argument; sizeOf always does. -/
def beqF : Nat → Json → Json → Bool
  | 0, _, _ => false
  | f + 1, a, b =>
    match a, b with
    | Json.null, Json.null => true
    | Json.bool x, Json.bool y => x == y
    | Json.num x, Json.num y => x == y
    | Json.str x, Json.str y => x == y
    | Json.arr xs, Json.arr ys =>
        xs.length == ys.length && (xs.zip ys).all (fun p => beqF f p.1 p.2)
    | Json.obj xs, Json.obj ys =>
        xs.length == ys.length &&
          (xs.zip ys).all (fun p => p.1.1 == p.2.1 && beqF f p.1.2 p.2.2)
    | _, _ => false

mutual

/-- Size of a document (computable; used as a fuel bound). -/
def Json.size : Json → Nat
  | Json.null => 1
  | Json.bool _ => 1
  | Json.num _ => 1
  | Json.str _ => 1
  | Json.arr xs => 1 + Json.sizeList xs
  | Json.obj kvs => 1 + Json.sizeFields kvs

/-- Total size of a list of documents. -/
def Json.sizeList : List Json → Nat
  | [] => 0
  | x :: xs => 1 + Json.size x + Json.sizeList xs

/-- Total size of a field list. -/
def Json.sizeFields : List (String × Json) → Nat
  | [] => 0
  | kv :: rest => 1 + Json.size kv.2 + Json.sizeFields rest

end

theorem size_lt_of_mem_list {x : Json} {xs : List Json} (h : x ∈ xs) :
    Json.size x < 1 + Json.sizeList xs := by
  induction xs with
  | nil => cases h
  | cons y ys ih =>
      rcases List.mem_cons.mp h with rfl | h2
      · simp [Json.sizeList]; omega
      · have := ih h2
        simp [Json.sizeList] at *
        omega

theorem size_lt_of_mem_fields {kv : String × Json} {kvs : List (String × Json)}
    (h : kv ∈ kvs) : Json.size kv.2 < 1 + Json.sizeFields kvs := by
  induction kvs with
  | nil => cases h
  | cons y ys ih =>
      rcases List.mem_cons.mp h with rfl | h2
      · simp [Json.sizeFields]; omega
      · have := ih h2
        simp [Json.sizeFields] at *
        omega

/-- Deep structural equality on documents. -/
def Json.beq (a b : Json) : Bool := beqF (Json.size a) a b

theorem list_eq_of_zip (xs : List Json) :
    ∀ ys : List Json, xs.length = ys.length →
      (∀ p ∈ xs.zip ys, p.1 = p.2) → xs = ys := by
  induction xs with
  | nil => intro ys hl _; cases ys <;> simp_all
  | cons x xs ih =>
      intro ys hl hp
      cases ys with
      | nil => simp at hl
      | cons y ys =>
          have hx : x = y := hp (x, y) (by simp [List.zip])
          have : xs = ys := by
            refine ih ys (by simpa using hl) ?_
            intro p hpmem
            exact hp p (by simp [List.zip]; right; simpa [List.zip] using hpmem)
          simp [hx, this]

theorem fields_eq_of_zip (xs : List (String × Json)) :
    ∀ ys : List (String × Json), xs.length = ys.length →
      (∀ p ∈ xs.zip ys, p.1.1 = p.2.1 ∧ p.1.2 = p.2.2) → xs = ys := by
  induction xs with
  | nil => intro ys hl _; cases ys <;> simp_all
  | cons x xs ih =>
      intro ys hl hp
      cases ys with
      | nil => simp at hl
      | cons y ys =>
          have hx : x.1 = y.1 ∧ x.2 = y.2 := hp (x, y) (by simp [List.zip])
          have ht : xs = ys := by
            refine ih ys (by simpa using hl) ?_
            intro p hpmem
            exact hp p (by simp [List.zip]; right; simpa [List.zip] using hpmem)
          have : x = y := Prod.ext hx.1 hx.2
          simp [this, ht]

/-- Completeness of the boolean test: it only identifies equal documents
(any amount of fuel). -/
theorem beqF_eq : ∀ (f : Nat) (a b : Json), beqF f a b = true → a = b := by
  intro f
  induction f with
  | zero => intro a b h; simp [beqF] at h
  | succ f ih =>
      intro a b h
      cases a <;> cases b <;> simp_all [beqF]
      case arr xs ys =>
        exact list_eq_of_zip xs ys h.1 (fun p hp => ih p.1 p.2 (h.2 p.1 p.2 hp))
      case obj xs ys =>
        refine fields_eq_of_zip xs ys h.1 ?_
        intro p hp
        rcases h.2 p.1.1 p.1.2 p.2.1 p.2.2 hp with ⟨h1, h2⟩
        exact ⟨h1, ih p.1.2 p.2.2 h2⟩

theorem zip_self {α : Type} (xs : List α) : xs.zip xs = xs.map (fun x => (x, x)) := by
  induction xs with
  | nil => rfl
  | cons x xs ih => simp [List.zip, ih]

theorem beqF_arr (f : Nat) (xs ys : List Json) :
    beqF (f + 1) (Json.arr xs) (Json.arr ys) =
      (xs.length == ys.length && (xs.zip ys).all (fun p => beqF f p.1 p.2)) := rfl

theorem beqF_obj (f : Nat) (xs ys : List (String × Json)) :
    beqF (f + 1) (Json.obj xs) (Json.obj ys) =
      (xs.length == ys.length &&
        (xs.zip ys).all (fun p => p.1.1 == p.2.1 && beqF f p.1.2 p.2.2)) := rfl

/-- Reflexivity of the boolean test under sufficient fuel. -/
theorem beqF_refl : ∀ (f : Nat) (a : Json), Json.size a ≤ f → beqF f a a = true := by
  intro f
  induction f with
  | zero =>
      intro a h
      exfalso
      cases a <;> simp [Json.size] at h
  | succ f ih =>
      intro a h
      cases a with
      | null => simp [beqF]
      | bool b => simp [beqF]
      | num n => simp [beqF]
      | str s => simp [beqF]
      | arr xs =>
          simp only [beqF_arr, zip_self, List.all_map, Bool.and_eq_true,
            List.all_eq_true, beq_self_eq_true, true_and]
          intro p hp
          obtain ⟨y, hy, rfl⟩ := List.mem_map.mp hp
          have hs := size_lt_of_mem_list hy
          have hsz : Json.size (Json.arr xs) = 1 + Json.sizeList xs := rfl
          exact ih y (by omega)
      | obj kvs =>
          simp only [beqF_obj, zip_self, List.all_map, Bool.and_eq_true,
            List.all_eq_true, beq_self_eq_true, true_and]
          intro p hp
          obtain ⟨kv, hkv, rfl⟩ := List.mem_map.mp hp
          have hs := size_lt_of_mem_fields hkv
          have hsz : Json.size (Json.obj kvs) = 1 + Json.sizeFields kvs := rfl
          simp [ih kv.2 (by omega : Json.size kv.2 ≤ f)]

/-- Reflexivity of deep structural equality. -/
theorem json_beq_refl (a : Json) : Json.beq a a = true :=
  beqF_refl (Json.size a) a le_rfl

/-- Decidable propositional equality for documents, via the boolean test. -/
instance Json.instDecEq : DecidableEq Json := fun a b =>
  decidable_of_iff (Json.beq a b = true)
    ⟨beqF_eq (Json.size a) a b, by rintro rfl; exact json_beq_refl a⟩


/-- A Python dict with string keys, as an ordered association list. -/
abbrev PyDict := List (String × Json)

/-- dict.get: the value at the first occurrence of the key, if any. -/
def dictGet : PyDict → String → Option Json
  | [], _ => none
  | (k, v) :: rest, key => if k = key then some v else dictGet rest key

/-- dict assignment: replace the value at the first occurrence of the key
in place (preserving order), or append the pair if the key is absent. -/
def dictSet : PyDict → String → Json → PyDict
  | [], key, v => [(key, v)]
  | (k, w) :: rest, key, v =>
      if k = key then (k, v) :: rest else (k, w) :: dictSet rest key v

/-- A changed record, as built by the differ:
a dict with operation, key, value and old_value. -/
def changedRec (key : String) (newVal oldVal : Json) : PyDict :=
  [("operation", Json.str "changed"), ("key", Json.str key),
   ("value", newVal), ("old_value", oldVal)]

/-- An added record, as built by the differ: the full new subtree as value. -/
def addedRec (key : String) (v : Json) : PyDict :=
  [("operation", Json.str "added"), ("key", Json.str key), ("value", v)]

/-- A removed record, as built by the differ: the old subtree as old_value. -/
def removedRec (key : String) (v : Json) : PyDict :=
  [("operation", Json.str "removed"), ("key", Json.str key), ("old_value", v)]

/-- One comparison step below a named position: recurse only when both
sides are mappings or both are sequences; otherwise compare by deep
equality and emit one changed record at this path on mismatch (types
differing counts as a mismatch, with no deeper recursion). -/
def childDiffStep (rec : Json → Json → String → List PyDict)
    (o n : Json) (p : String) : List PyDict :=
  match o, n with
  | Json.obj _, Json.obj _ => rec o n (p ++ ".")
  | Json.arr _, Json.arr _ => rec o n (p ++ ".")
  | _, _ => if Json.beq o n then [] else [changedRec p n o]

/-- Mapping case of the differ: walk the old dict in order (recursing on
keys present in both, emitting removed for old-only keys), then emit added
for new-only keys in the new dict order. -/
def diffFieldsStep (rec : Json → Json → String → List PyDict)
    (os ns : PyDict) (path : String) : List PyDict :=
  (os.flatMap (fun kv =>
    match dictGet ns kv.1 with
    | some nv => childDiffStep rec kv.2 nv (path ++ kv.1)
    | none => [removedRec (path ++ kv.1) kv.2]))
  ++ (ns.filterMap (fun kv =>
    if (dictGet os kv.1).isSome then none
    else some (addedRec (path ++ kv.1) kv.2)))

/-- Sequence case of the differ: pairwise by position up to the shorter
length, then trailing extra elements of the new side are added and
trailing extra elements of the old side are removed, at their indices. -/
def diffElemsStep (rec : Json → Json → String → List PyDict)
    (xs ys : List Json) (path : String) : List PyDict :=
  ((xs.zip ys).enum.flatMap (fun iz =>
    childDiffStep rec iz.2.1 iz.2.2 (path ++ toString iz.1)))
  ++ ((ys.drop xs.length).enum.map (fun iv =>
    addedRec (path ++ toString (xs.length + iv.1)) iv.2))
  ++ ((xs.drop ys.length).enum.map (fun iv =>
    removedRec (path ++ toString (ys.length + iv.1)) iv.2))

/-- Modelled from the spec: the recursive path differ compare_dicts lives
in helpers.py, which is not among the source files; this follows section
4.1 of the spec literally.  Fuel-bounded: every recursive call descends
strictly into the old document, so fuel equal to the size of the old side
is always enough and the 0 case is never reached from the wrapper below. -/
def compare_dictsF : Nat → Json → Json → String → List PyDict
  | 0, _, _, _ => []
  | f + 1, old, new, path =>
    match old, new with
    | Json.obj os, Json.obj ns => diffFieldsStep (compare_dictsF f) os ns path
    | Json.arr xs, Json.arr ys => diffElemsStep (compare_dictsF f) xs ys path
    | o, n => if Json.beq o n then [] else [changedRec path n o]

/-- Modelled from the spec: compare_dicts with its fuel instantiated. -/
def compare_dicts (old new : Json) (path : String) : List PyDict :=
  compare_dictsF (Json.size old) old new path

/-- First loop of compare_orders: for each index of the old list, either
delegate to the differ (prefixing the index as path) or emit a bare
removed record carrying only the operation and the index as key. -/
def compareOrdersOld : List Json → List Json → Nat → List PyDict
  | [], _, _ => []
  | o :: os, news, i =>
      (match news.get? i with
       | some n => compare_dicts o n (toString i ++ ".")
       | none => [[("operation", Json.str "removed"), ("key", Json.str (toString i))]])
      ++ compareOrdersOld os news (i + 1)

/-- compare_orders from orders_data.py: entity-level comparison over the
two order lists; indices past the old length yield bare added records
carrying only the operation and the index as key. -/
def compare_orders (old_orders new_orders : List Json) : List PyDict :=
  compareOrdersOld old_orders new_orders 0
  ++ ((new_orders.drop old_orders.length).enum.map (fun iv =>
    [("operation", Json.str "added"),
     ("key", Json.str (toString (old_orders.length + iv.1)))]))

example :
    compare_orders [Json.obj [("v", Json.num 1)]]
      [Json.obj [("v", Json.num 1)], Json.obj [("v", Json.num 2)]] =
    [[("operation", Json.str "added"), ("key", Json.str "1")]] := by decide

/-- State of one persisted file: missing; present with bytes that are
not valid UTF-8 (json.load raises UnicodeDecodeError from its internal
read, and that class is not caught below); present with UTF-8 text that
fails to parse as JSON, or unreadable at the OS level (json.JSONDecodeError
and OSError, the two caught classes); or parsed JSON content (the valid
state holds exactly the document json.dump serialized). -/
inductive FileState where
  | missing : FileState
  | notUtf8 : FileState
  | corrupt : FileState
  | valid (j : Json) : FileState

/-- The history file path; its concrete value comes from the app config
module (not among the source files) and never matters below. -/
def HISTORY_FILE : String := "order_history.json"

/-- load_history_from_file from history.py: if the file does not exist,
return the empty list; if it exists, try json.load and return the empty
list when OSError or json.JSONDecodeError is raised; otherwise return
the parsed document.  The except clause names only those two classes, so
the UnicodeDecodeError raised inside json.load by a file whose bytes are
not valid UTF-8 escapes it and propagates to the caller: that path is the
error result. -/
def load_history_from_file : FileState → Except String Json
  | FileState.missing => Except.ok (Json.arr [])
  | FileState.notUtf8 => Except.error "UnicodeDecodeError"
  | FileState.corrupt => Except.ok (Json.arr [])
  | FileState.valid j => Except.ok j

/-- The history entry dict built by main in orders.py: a timestamp string
and the change list, exactly as produced by the comparison. -/
def mkHistoryEntry (timestamp : String) (changes : List PyDict) : Json :=
  Json.obj [("timestamp", Json.str timestamp),
            ("changes", Json.arr (changes.map Json.obj))]

/-- The append path of main in orders.py: load the history, push one new
entry, save the whole rewritten document.  Returns none when the load
propagates an error or the loaded document is not a list, where Python
raises (UnicodeDecodeError and AttributeError respectively). -/
def append_history (fs : FileState) (timestamp : String)
    (changes : List PyDict) : Option FileState :=
  match load_history_from_file fs with
  | Except.ok (Json.arr entries) =>
      some (FileState.valid (Json.arr (entries ++ [mkHistoryEntry timestamp changes])))
  | _ => none

/-- File-system operations performed by the store, in program order. -/
inductive FsOp where
  | existsCheck (p : String) : FsOp
  | openRead (p : String) : FsOp
  | mkdirParents (p : String) : FsOp
  | openTruncate (p : String) : FsOp
  | writeFile (p : String) (content : Json) : FsOp
  | rename (src dst : String) : FsOp

/-- A file system: the state of every path. -/
def FSys := String → FileState

/-- Effect of one operation on the file system: checks and reads change
nothing; opening for write truncates the target, leaving a strict prefix
of json.dump output, which is ASCII (hence valid UTF-8) and not valid
JSON — the caught corrupt state; a write stores the serialized document;
a rename moves content from source to target. -/
def runOp (fs : FSys) : FsOp → FSys
  | FsOp.existsCheck _ => fs
  | FsOp.openRead _ => fs
  | FsOp.mkdirParents _ => fs
  | FsOp.openTruncate p => fun q => if q = p then FileState.corrupt else fs q
  | FsOp.writeFile p c => fun q => if q = p then FileState.valid c else fs q
  | FsOp.rename src dst =>
      fun q => if q = dst then fs src else if q = src then FileState.missing else fs q

/-- Effect of a sequence of operations, in order. -/
def runOps (fs : FSys) : List FsOp → FSys
  | [] => fs
  | op :: ops => runOps (runOp fs op) ops

/-- save_history_to_file from history.py, as the operations it performs:
make the parent directory, open the history path for writing (truncating
it), dump the document.  No temporary path and no rename appear. -/
def save_history_to_file_ops (history : Json) : List FsOp :=
  [FsOp.mkdirParents HISTORY_FILE, FsOp.openTruncate HISTORY_FILE,
   FsOp.writeFile HISTORY_FILE history]

/-- The store writes via a temporary path renamed over the target: some
rename lands on the target from a distinct temporary path, and no write
ever opens or hits the target path directly. -/
def atomicViaTempRename (ops : List FsOp) (target : String) : Prop :=
  (∃ tmp, tmp ≠ target ∧ FsOp.rename tmp target ∈ ops) ∧
    (∀ c, FsOp.writeFile target c ∉ ops) ∧ (FsOp.openTruncate target ∉ ops)

/-- File operations of load_history_from_file: the existence check, then
an open for reading when the file exists.  Nothing else in
get_history_of_order touches a file. -/
def load_history_ops (fs : FSys) : List FsOp :=
  FsOp.existsCheck HISTORY_FILE ::
    (match fs HISTORY_FILE with
     | FileState.missing => []
     | _ => [FsOp.openRead HISTORY_FILE])

/-- n successive projection calls, each performing only the load's reads. -/
def runProjectionCalls : Nat → FSys → FSys
  | 0, fs => fs
  | n + 1, fs => runProjectionCalls n (runOps fs (load_history_ops fs))

/-- Characters before the first dot and after it, when a dot occurs. -/
def splitFirstChars : List Char → Option (List Char × List Char)
  | [] => none
  | c :: cs =>
      if c = '.' then some ([], cs)
      else match splitFirstChars cs with
           | none => none
           | some pq => some (c :: pq.1, pq.2)

/-- Python key.split(".", 1): the part before the first dot, and the
remainder after it when a dot occurs. -/
def splitFirst (s : String) : String × Option String :=
  match splitFirstChars s.data with
  | none => (s, none)
  | some pq => (String.mk pq.1, some (String.mk pq.2))

/-- Python str.startswith. -/
def startsWithB (s pre : String) : Bool := pre.data.isPrefixOf s.data

/-- Modelled from the spec: get_date_from_timestamp lives in helpers.py,
which is not among the source files.  The spec says only that string
values recognized as epoch timestamps are reformatted to a display date
string and others pass through, leaving recognition and format
unspecified; recognition is modelled as nonempty all-digit strings and
the format as a concrete tagging.  No claim below depends on the choice. -/
def get_date_from_timestamp (s : String) : String :=
  if s.length > 0 && s.toList.all Char.isDigit then "date " ++ s else s

/-- One field of the timestamp-conversion loop in get_history_of_order:
string-typed payloads are passed through the date conversion in place. -/
def convertField (c : PyDict) (f : String) : PyDict :=
  match dictGet c f with
  | some (Json.str s) => dictSet c f (Json.str (get_date_from_timestamp s))
  | _ => c

/-- Tail of the projection loop body, applied to every emitted record:
convert value and old_value, then attach the owning entry timestamp. -/
def finishChange (c : PyDict) (entry_ts : Json) : PyDict :=
  dictSet (convertField (convertField c "value") "old_value") "timestamp" entry_ts

/-- One field of the share-mode redaction loop: string-typed payloads of
anonymous keys are replaced by None. -/
def nullifyField (c : PyDict) (f : String) : PyDict :=
  match dictGet c f with
  | some (Json.str _) => dictSet c f Json.null
  | _ => c

/-- The share-mode redaction applied to value and old_value. -/
def nullifyAnon (c : PyDict) : PyDict :=
  nullifyField (nullifyField c "value") "old_value"

/-- The projection policy: the module tables and mode flags that
get_history_of_order reads, passed explicitly.  The spec's
TranslationPolicy corresponds to allKeysMode as verbose, shareMode as
redact, detailsMode false, and translationsDetails as the translation
table joined with the anonymous table. -/
structure ProjPolicy where
  ignored : List String
  translations : List (String × String)
  anonymous : List (String × String)
  translationsDetails : List (String × String)
  allKeysMode : Bool
  detailsMode : Bool
  shareMode : Bool

/-- Body of the record loop in get_history_of_order (history.py lines
130-177), for one change record: skip records without a string key; skip
records whose leading dot segment differs from the order id; strip that
prefix; outside all-keys mode drop ignored prefixes, apply the allow-list
when not in details mode, translate the key or drop the record, and
redact anonymous keys in share mode; finally convert timestamps and
attach the entry timestamp.  Returns the emitted record, if any. -/
def project_change (pol : ProjPolicy) (order_id : String) (entry_ts : Json)
    (change : PyDict) : Option PyDict :=
  match dictGet change "key" with
  | some (Json.str key0) =>
      let parts := splitFirst key0
      if parts.1 = order_id then
        let key := parts.2.getD key0
        if pol.allKeysMode then
          some (finishChange change entry_ts)
        else if pol.ignored.any (fun pre => startsWithB key pre) then none
        else if !pol.detailsMode && (List.lookup key pol.translations).isNone
                && (List.lookup key pol.anonymous).isNone then none
        else
          match List.lookup key pol.translationsDetails with
          | some label =>
              let c1 := dictSet change "key" (Json.str label)
              let c2 := if pol.shareMode && (List.lookup key pol.anonymous).isSome
                        then nullifyAnon c1 else c1
              some (finishChange c2 entry_ts)
          | none => none
      else none
  | _ => none

/-- One loaded history entry, in the shape the projection loop reads:
the entry timestamp and its list of change records. -/
structure HistEntry where
  timestamp : Json
  changes : List PyDict

/-- get_history_of_order with the module tables and flags passed
explicitly: every record of every entry in order through the loop body. -/
def get_history_of_order_gen (pol : ProjPolicy) (history : List HistEntry)
    (order_id : String) : List PyDict :=
  history.flatMap (fun e => e.changes.filterMap (project_change pol order_id e.timestamp))

/-- HISTORY_TRANSLATIONS_IGNORED from history.py: prefixes of
uninteresting history keys. -/
def HISTORY_TRANSLATIONS_IGNORED : List String :=
  ["order.vin",
   "details.tasks.registration.orderDetails.vin",
   "details.tasks.registration.regData.orderDetails.vin",
   "details.tasks.finalPayment.data.vin",
   "details.tasks.tradeIn.isMatched",
   "details.tasks.registration.isMatched",
   "details.tasks.registration.orderDetails.vehicleModelYear",
   "details.state.",
   "details.strings.",
   "details.scheduling.card.",
   "details.scheduling.strings.",
   "details.tasks.carbonCredit.card.",
   "details.tasks.carbonCredit.strings.",
   "details.tasks.finalPayment.card.",
   "details.tasks.finalPayment.strings.",
   "details.tasks.scheduling.card.",
   "details.tasks.scheduling.strings.",
   "details.tasks.scheduling.isDeliveryEstimatesEnabled",
   "details.tasks.registration.orderDetails.isAvailableForMatch",
   "details.tasks.finalPayment.data.isAvailableForMatch",
   "details.tasks.finalPayment.data.deliveryReadinessDetail.",
   "details.tasks.finalPayment.data.deliveryReadiness.",
   "details.tasks.finalPayment.data.agreementDetails",
   "details.tasks.finalPayment.data.vehicleId",
   "details.tasks.deliveryAcceptance.gates",
   "details.tasks.deliveryAcceptance.card.",
   "details.tasks.deliveryAcceptance.strings.",
   "details.tasks.deliveryDetails.regData.reggieRegistrationStatus",
   "details.tasks.deliveryDetails.strings.",
   "details.tasks.deliveryDetails.card.",
   "details.tasks.registration.card.",
   "details.tasks.registration.regData.reggieRegistrationStatus",
   "details.tasks.registration.strings.",
   "details.tasks.finalPayment.complete",
   "details.tasks.finalPayment.data.finalPaymentStatus",
   "details.tasks.scheduling.apptDateTimeAddressStr",
   "details.tasks.scheduling.isInventoryOrMatched",
   "details.tasks.finalPayment.data.hasFinalInvoice",
   "details.tasks.finalPayment.data.hasActiveInvoice",
   "details.tasks.finalPayment.data.selfSchedulingDetails.deliveryLocationId",
   "details.tasks.finalPayment.data.selfSchedulingDetails.",
   "details.tasks.financing.card.",
   "details.tasks.financing.strings.",
   "details.tasks.tradeIn.card.",
   "details.tasks.tradeIn.strings."]

/-- HISTORY_TRANSLATIONS from history.py. -/
def HISTORY_TRANSLATIONS : List (String × String) :=
  [("details.tasks.scheduling.deliveryWindowDisplay", "Delivery Window"),
   ("details.tasks.scheduling.deliveryAppointmentDate", "Delivery Appointment Date"),
   ("details.tasks.scheduling.deliveryAddressTitle", "Delivery Center"),
   ("details.tasks.finalPayment.data.etaToDeliveryCenter", "ETA to Delivery Center"),
   ("details.tasks.registration.orderDetails.vehicleRoutingLocation", "Routing Location"),
   ("details.tasks.registration.expectedRegDate", "Expected Registration Date"),
   ("details.orderStatus", "Order Status"),
   ("details.tasks.registration.orderDetails.reservationDate", "Reservation Date"),
   ("details.tasks.registration.orderDetails.orderBookedDate", "Order Booked Date"),
   ("details.tasks.registration.orderDetails.vehicleOdometer", "Vehicle Odometer"),
   ("order.modelCode", "Model"),
   ("order.mktOptions", "Configuration")]

/-- HISTORY_TRANSLATIONS_ANONYMOUS from history.py. -/
def HISTORY_TRANSLATIONS_ANONYMOUS : List (String × String) :=
  [("details.tasks.deliveryDetails.regData.orderDetails.vin", "VIN")]

/-- HISTORY_TRANSLATIONS_DETAILS from history.py: the translation table,
then the anonymous table, then the details-only entries (no key occurs
twice, so list concatenation matches the Python dict merge). -/
def HISTORY_TRANSLATIONS_DETAILS : List (String × String) :=
  HISTORY_TRANSLATIONS ++ HISTORY_TRANSLATIONS_ANONYMOUS ++
  [("details.tasks.finalPayment.data.paymentDetails.amountPaid", "Amount Paid"),
   ("details.tasks.finalPayment.data.paymentDetails.paymentType", "Payment Method"),
   ("details.tasks.finalPayment.data.accountBalance", "Account Balance"),
   ("details.tasks.finalPayment.data.amountDue", "Amount Due"),
   ("details.tasks.finalPayment.data.financingDetails.financialProductType", "Finance Product"),
   ("details.tasks.finalPayment.data.financingDetails.teslaFinanceDetails.financePartnerName", "Finance Partner"),
   ("details.tasks.finalPayment.data.financingDetails.teslaFinanceDetails.monthlyPayment", "Monthly Payment"),
   ("details.tasks.finalPayment.data.financingDetails.teslaFinanceDetails.termsInMonths", "Term (months)"),
   ("details.tasks.finalPayment.data.financingDetails.teslaFinanceDetails.interestRate", "Interest Rate"),
   ("details.tasks.finalPayment.data.financingDetails.teslaFinanceDetails.mileage", "Range per Year"),
   ("details.tasks.finalPayment.data.amountDueFinancier", "Financed Amount"),
   ("details.tasks.finalPayment.data.financingDetails.teslaFinanceDetails.approvedLoanAmount", "Approved Amount"),
   ("details.tasks.finalPayment.data.paymentDetails", "Payment Details"),
   ("details.tasks.finalPayment.amountDue", "Amount Due"),
   ("details.tasks.finalPayment.data.amountDueAfterRefund", "Amount Due After Refund"),
   ("details.tasks.finalPayment.status", "Payment Status"),
   ("details.tasks.registration.orderDetails.vehicleId", "VehicleID"),
   ("details.tasks.registration.orderDetails.registrationStatus", "Registration Status"),
   ("details.tasks.finalPayment.data.vehicleregistration", "Vehicle Registration"),
   ("details.tasks.finalPayment.data.vehicleParts", "Vehicle Parts"),
   ("details.tasks.scheduling.apptDateTimeAddressStr", "Delivery Details")]

/-- The mode flags, as in the params module of the integration (the CLI
params module is not among the source files; the one in src sets every
flag to False). -/
def ALL_KEYS_MODE : Bool := false

/-- Details mode flag (False in the params module in src). -/
def DETAILS_MODE : Bool := false

/-- Share mode flag (False in the params module in src). -/
def SHARE_MODE : Bool := false

/-- The policy get_history_of_order actually runs with: the module tables
and the module flags. -/
def modulePolicy : ProjPolicy :=
  { ignored := HISTORY_TRANSLATIONS_IGNORED,
    translations := HISTORY_TRANSLATIONS,
    anonymous := HISTORY_TRANSLATIONS_ANONYMOUS,
    translationsDetails := HISTORY_TRANSLATIONS_DETAILS,
    allKeysMode := ALL_KEYS_MODE,
    detailsMode := DETAILS_MODE,
    shareMode := SHARE_MODE }

/-- get_history_of_order from history.py, on an already loaded history. -/
def get_history_of_order (history : List HistEntry) (order_id : String) : List PyDict :=
  get_history_of_order_gen modulePolicy history order_id

/-- The operation invariant of the ChangeRecord model: an added record
carries a value and no old_value, a removed record carries an old_value
and no value, a changed record carries both and they differ. -/
def changeInvariant (r : PyDict) : Prop :=
  (dictGet r "operation" = some (Json.str "added") →
     (dictGet r "value").isSome ∧ dictGet r "old_value" = none) ∧
  (dictGet r "operation" = some (Json.str "removed") →
     (dictGet r "old_value").isSome ∧ dictGet r "value" = none) ∧
  (dictGet r "operation" = some (Json.str "changed") →
     ∃ v ov, dictGet r "value" = some v ∧ dictGet r "old_value" = some ov ∧ v ≠ ov)

/-- A well-formed document: mapping keys are unique at every level, as
Python dicts deserialized from JSON always are. -/
inductive Json.WF : Json → Prop
  | null : Json.WF Json.null
  | bool (b : Bool) : Json.WF (Json.bool b)
  | num (n : Int) : Json.WF (Json.num n)
  | str (s : String) : Json.WF (Json.str s)
  | arr {xs : List Json} : (∀ x ∈ xs, Json.WF x) → Json.WF (Json.arr xs)
  | obj {kvs : List (String × Json)} : (kvs.map Prod.fst).Nodup →
      (∀ kv ∈ kvs, Json.WF kv.2) → Json.WF (Json.obj kvs)

theorem dictGet_dictSet_self (c : PyDict) (k : String) (v : Json) :
    dictGet (dictSet c k v) k = some v := by
  induction c with
  | nil => simp [dictGet, dictSet]
  | cons kv rest ih =>
      by_cases h : kv.1 = k
      · simp [dictGet, dictSet, h]
      · simp [dictGet, dictSet, h, ih]

theorem dictGet_dictSet_ne (c : PyDict) (k k2 : String) (v : Json) (h : k ≠ k2) :
    dictGet (dictSet c k v) k2 = dictGet c k2 := by
  induction c with
  | nil => simp [dictGet, dictSet, h]
  | cons kv rest ih =>
      by_cases h1 : kv.1 = k
      · simp [dictGet, dictSet, h1, h]
      · by_cases h2 : kv.1 = k2 <;> simp [dictGet, dictSet, h1, h2, ih, Ne.symm h]

theorem dictGet_convertField_ne (c : PyDict) (f g : String) (h : f ≠ g) :
    dictGet (convertField c f) g = dictGet c g := by
  unfold convertField
  cases hv : dictGet c f with
  | none => rfl
  | some v => cases v <;> simp [dictGet_dictSet_ne c f g _ h]

theorem dictGet_nullifyField_ne (c : PyDict) (f g : String) (h : f ≠ g) :
    dictGet (nullifyField c f) g = dictGet c g := by
  unfold nullifyField
  cases hv : dictGet c f with
  | none => rfl
  | some v => cases v <;> simp [dictGet_dictSet_ne c f g _ h]

theorem dictGet_finishChange_key (c : PyDict) (ts : Json) :
    dictGet (finishChange c ts) "key" = dictGet c "key" := by
  unfold finishChange
  rw [dictGet_dictSet_ne _ _ _ _ (by decide),
      dictGet_convertField_ne _ _ _ (by decide),
      dictGet_convertField_ne _ _ _ (by decide)]

/-- C2 counterexample: a history file whose bytes are not valid UTF-8 is
non-JSON content on which loading does raise — json.load fails with
UnicodeDecodeError, which the except clause (OSError, json.JSONDecodeError)
does not catch, so the error propagates instead of yielding an empty log. -/
theorem load_history_nonutf8_raises :
    load_history_from_file FileState.notUtf8 = Except.error "UnicodeDecodeError" ∧
    ∀ j : Json, load_history_from_file FileState.notUtf8 ≠ Except.ok j :=
  ⟨rfl, fun j h => by cases h⟩

/-- C2 amended: a missing file loads as the empty log, and a file whose
contents decode as UTF-8 but fail to parse as JSON (or whose read raises
OSError) also loads as the empty log; but a file whose bytes are not
valid UTF-8 makes the load propagate UnicodeDecodeError — the tolerance
covers the caught classes only, not arbitrary non-JSON bytes. -/
theorem load_history_tolerance :
    load_history_from_file FileState.missing = Except.ok (Json.arr []) ∧
    load_history_from_file FileState.corrupt = Except.ok (Json.arr []) ∧
    (∀ j : Json, load_history_from_file (FileState.valid j) = Except.ok j) ∧
    load_history_from_file FileState.notUtf8 = Except.error "UnicodeDecodeError" :=
  ⟨rfl, rfl, fun _ => rfl, rfl⟩

/-- C5 counterexample: saving the history performs a direct truncating
write of the history path and contains no rename operation at all, so it
is not implemented as a temporary-path write followed by a rename. -/
theorem save_history_no_temp_rename :
    ¬ atomicViaTempRename (save_history_to_file_ops (Json.arr [])) HISTORY_FILE := by
  intro h
  rcases h with ⟨⟨tmp, hne, hmem⟩, _, _⟩
  simp [save_history_to_file_ops] at hmem

/-- C5 amended: every save rewrites the history file in place with no
rename anywhere; the final state holds the new document, but between the
truncating open and the write the file is unparseable, and a load at that
intermediate point yields the empty log (the tolerated corruption). -/
theorem save_history_direct_write (h : Json) (fs : FSys) :
    (∀ s d, FsOp.rename s d ∉ save_history_to_file_ops h) ∧
    runOps fs (save_history_to_file_ops h) HISTORY_FILE = FileState.valid h ∧
    runOps fs [FsOp.mkdirParents HISTORY_FILE, FsOp.openTruncate HISTORY_FILE]
        HISTORY_FILE = FileState.corrupt ∧
    load_history_from_file FileState.corrupt = Except.ok (Json.arr []) := by
  refine ⟨?_, ?_, ?_, rfl⟩
  · intro s d hmem
    simp [save_history_to_file_ops] at hmem
  · simp [save_history_to_file_ops, runOps, runOp]
  · simp [runOps, runOp]

/-- C6: two successive appends extend the log by exactly the two new
entries, in order, with their change lists embedded unmodified; nothing
is merged or deduplicated, including when both timestamps coincide. -/
theorem append_append_roundtrip (fs : FileState) (prior : List Json)
    (t1 t2 : String) (c1 c2 : List PyDict)
    (hload : load_history_from_file fs = Except.ok (Json.arr prior))
    (_hne1 : c1 ≠ []) (_hne2 : c2 ≠ []) :
    ∃ fs1 fs2,
      append_history fs t1 c1 = some fs1 ∧
      append_history fs1 t2 c2 = some fs2 ∧
      load_history_from_file fs2 =
        Except.ok (Json.arr (prior ++ [mkHistoryEntry t1 c1, mkHistoryEntry t2 c2])) := by
  refine ⟨FileState.valid (Json.arr (prior ++ [mkHistoryEntry t1 c1])),
          FileState.valid (Json.arr ((prior ++ [mkHistoryEntry t1 c1]) ++
            [mkHistoryEntry t2 c2])), ?_, ?_, ?_⟩
  · simp [append_history, hload]
  · simp [append_history, load_history_from_file]
  · simp [load_history_from_file]

/-- C6 witness: from a missing file, two appends with the same timestamp
both land, in order. -/
theorem append_append_roundtrip_witness :
    ∃ fs1 fs2,
      append_history FileState.missing "2024-01-01" [addedRec "1" Json.null] = some fs1 ∧
      append_history fs1 "2024-01-01" [removedRec "2" Json.null] = some fs2 ∧
      load_history_from_file fs2 =
        Except.ok (Json.arr ([] ++ [mkHistoryEntry "2024-01-01" [addedRec "1" Json.null],
                         mkHistoryEntry "2024-01-01" [removedRec "2" Json.null]])) :=
  append_append_roundtrip FileState.missing [] "2024-01-01" "2024-01-01"
    [addedRec "1" Json.null] [removedRec "2" Json.null] rfl (by decide) (by decide)

theorem runOps_load_history_ops (fs : FSys) : runOps fs (load_history_ops fs) = fs := by
  unfold load_history_ops
  cases fs HISTORY_FILE <;> simp [runOps, runOp]

/-- C8: the projection is read-only with respect to persisted state: its
only file operations are the existence check and the read performed by the
load, and any number of projection calls leaves every path of the file
system exactly as it was. -/
theorem projection_read_only (n : Nat) (fs : FSys) :
    runProjectionCalls n fs = fs := by
  induction n generalizing fs with
  | zero => rfl
  | succ n ih => simp [runProjectionCalls, runOps_load_history_ops, ih]

/-- C10: a change record whose key field is missing or not a string is
silently skipped: the loop body yields nothing for it, for every policy,
order id and entry timestamp, and an entry holding only such records
projects to the empty output. -/
theorem projection_skips_nonstring_key (pol : ProjPolicy) (order_id : String)
    (ts : Json) (change : PyDict)
    (h : ∀ s, dictGet change "key" ≠ some (Json.str s)) :
    project_change pol order_id ts change = none ∧
    get_history_of_order_gen pol [HistEntry.mk ts [change]] order_id = [] := by
  have hnone : project_change pol order_id ts change = none := by
    unfold project_change
    cases hk : dictGet change "key" with
    | none => rfl
    | some v => cases v with
      | str s => exact absurd hk (h s)
      | null => rfl
      | bool b => rfl
      | num n => rfl
      | arr xs => rfl
      | obj kvs => rfl
  exact ⟨hnone, by simp [get_history_of_order_gen, hnone]⟩

/-- C10 witness: a record with a numeric key is skipped. -/
theorem projection_skips_nonstring_key_witness :
    project_change modulePolicy "0" Json.null [("key", Json.num 5)] = none ∧
    get_history_of_order_gen modulePolicy [HistEntry.mk Json.null [[("key", Json.num 5)]]] "0" = [] :=
  projection_skips_nonstring_key modulePolicy "0" Json.null [("key", Json.num 5)]
    (by intro s hs; simp [dictGet] at hs)

/-- C7: a record is kept only when the leading dot segment of its key is
string-equal to the order id; the comparison is exact string equality, so
id 0 keeps a record at 0.x but silently drops one at 00.x. -/
theorem projection_entity_filter (pol : ProjPolicy) (order_id : String)
    (ts : Json) (change out : PyDict)
    (h : project_change pol order_id ts change = some out) :
    (∃ key0, dictGet change "key" = some (Json.str key0) ∧
        (splitFirst key0).1 = order_id) ∧
    project_change modulePolicy "0" Json.null [("key", Json.str "00.x")] = none ∧
    project_change (ProjPolicy.mk [] [] [] [] true false false) "0" Json.null
        [("key", Json.str "0.x")] =
      some [("key", Json.str "0.x"), ("timestamp", Json.null)] := by
  refine ⟨?_, by decide, by decide⟩
  unfold project_change at h
  cases hk : dictGet change "key" with
  | none => rw [hk] at h; exact absurd h (by simp)
  | some v =>
      cases v with
      | str key0 =>
          refine ⟨key0, rfl, ?_⟩
          rw [hk] at h
          by_cases hseg : (splitFirst key0).1 = order_id
          · exact hseg
          · simp [hseg] at h
      | null => rw [hk] at h; exact absurd h (by simp)
      | bool b => rw [hk] at h; exact absurd h (by simp)
      | num n => rw [hk] at h; exact absurd h (by simp)
      | arr xs => rw [hk] at h; exact absurd h (by simp)
      | obj kvs => rw [hk] at h; exact absurd h (by simp)

/-- C7 witness: with the module policy in all-keys mode off but details
irrelevant, a kept record indeed addresses the asked-for order id. -/
theorem projection_entity_filter_witness :
    (∃ key0, dictGet [("key", Json.str "0.x")] "key" = some (Json.str key0) ∧
        (splitFirst key0).1 = "0") ∧
    project_change modulePolicy "0" Json.null [("key", Json.str "00.x")] = none ∧
    project_change (ProjPolicy.mk [] [] [] [] true false false) "0" Json.null
        [("key", Json.str "0.x")] =
      some [("key", Json.str "0.x"), ("timestamp", Json.null)] :=
  projection_entity_filter (ProjPolicy.mk [] [] [] [] true false false) "0" Json.null
    [("key", Json.str "0.x")] [("key", Json.str "0.x"), ("timestamp", Json.null)]
    (by decide)

theorem dictGet_of_mem_nodup {kvs : List (String × Json)}
    (hnd : (kvs.map Prod.fst).Nodup) {kv : String × Json} (hmem : kv ∈ kvs) :
    dictGet kvs kv.1 = some kv.2 := by
  induction kvs with
  | nil => cases hmem
  | cons y ys ih =>
      rw [List.map_cons, List.nodup_cons] at hnd
      rcases List.mem_cons.mp hmem with rfl | h2
      · simp [dictGet]
      · have hy : y.1 ≠ kv.1 := by
          intro he
          have hm : kv.1 ∈ ys.map Prod.fst := List.mem_map.mpr ⟨kv, h2, rfl⟩
          exact hnd.1 (he ▸ hm)
        simp [dictGet, hy]
        exact ih hnd.2 h2

theorem dictGet_isSome_of_mem {kvs : List (String × Json)} {kv : String × Json}
    (hmem : kv ∈ kvs) : (dictGet kvs kv.1).isSome := by
  induction kvs with
  | nil => cases hmem
  | cons y ys ih =>
      rcases List.mem_cons.mp hmem with rfl | h2
      · simp [dictGet]
      · by_cases hy : y.1 = kv.1 <;> simp [dictGet, hy]
        exact ih h2

theorem flatMap_nil_of_forall {α β : Type} (l : List α) (g : α → List β)
    (h : ∀ a ∈ l, g a = []) : l.flatMap g = [] := by
  induction l with
  | nil => rfl
  | cons x xs ih =>
      simp [List.flatMap_cons, h x (by simp), ih (fun a ha => h a (by simp [ha]))]

theorem filterMap_nil_of_forall {α β : Type} (l : List α) (g : α → Option β)
    (h : ∀ a ∈ l, g a = none) : l.filterMap g = [] := by
  induction l with
  | nil => rfl
  | cons x xs ih =>
      simp [List.filterMap_cons, h x (by simp), ih (fun a ha => h a (by simp [ha]))]

theorem childDiffStep_refl (f : Nat) (x : Json) (q : String) (hwf : Json.WF x)
    (ih : ∀ (D : Json) (p : String), Json.WF D → compare_dictsF f D D p = []) :
    childDiffStep (compare_dictsF f) x x q = [] := by
  cases x <;> simp [childDiffStep, json_beq_refl] <;> exact ih _ _ hwf

/-- The no-op diff is empty at every fuel, over well-formed documents. -/
theorem compare_dictsF_self (f : Nat) :
    ∀ (D : Json) (p : String), Json.WF D → compare_dictsF f D D p = [] := by
  induction f with
  | zero => intro D p _; rfl
  | succ f ih =>
      intro D p hwf
      cases D with
      | null => simp [compare_dictsF, json_beq_refl]
      | bool b => simp [compare_dictsF, json_beq_refl]
      | num n => simp [compare_dictsF, json_beq_refl]
      | str s => simp [compare_dictsF, json_beq_refl]
      | arr xs =>
          cases hwf with
          | arr hall =>
            show diffElemsStep (compare_dictsF f) xs xs _ = []
            unfold diffElemsStep
            rw [zip_self]
            simp only [List.drop_length, List.enum_nil, List.map_nil, List.append_nil,
              Nat.sub_self]
            apply flatMap_nil_of_forall
            intro iz hiz
            obtain ⟨i, z⟩ := iz
            have hiz2 := List.mem_enum hiz
            have hzmem : z ∈ xs.map (fun x => (x, x)) := by
              rw [hiz2.2]
              exact List.getElem_mem _
            obtain ⟨y, hy, hzz⟩ := List.mem_map.mp hzmem
            rw [← hzz]
            exact childDiffStep_refl f y _ (hall y hy) ih
      | obj kvs =>
          cases hwf with
          | obj hnd hall =>
            show diffFieldsStep (compare_dictsF f) kvs kvs _ = []
            unfold diffFieldsStep
            rw [flatMap_nil_of_forall, filterMap_nil_of_forall]
            · rfl
            · intro kv hkv
              simp [dictGet_isSome_of_mem hkv]
            · intro kv hkv
              rw [dictGet_of_mem_nodup hnd hkv]
              exact childDiffStep_refl f kv.2 _ (hall kv hkv) ih

/-- C9: the no-op diff is empty: diffing any well-formed document (unique
mapping keys throughout, as for any document deserialized from JSON)
against itself yields no change records, where equality of subvalues is
deep structural equality. -/
theorem diff_self_is_empty (D : Json) (h : Json.WF D) :
    compare_dicts D D "" = [] :=
  compare_dictsF_self (Json.size D) D "" h

/-- C9 witness: a nested concrete document diffs to nothing against
itself. -/
theorem diff_self_is_empty_witness :
    compare_dicts
      (Json.obj [("a", Json.num 1),
                 ("b", Json.arr [Json.str "x", Json.obj [("c", Json.null)]])])
      (Json.obj [("a", Json.num 1),
                 ("b", Json.arr [Json.str "x", Json.obj [("c", Json.null)]])]) "" = [] :=
  diff_self_is_empty _ (by
    refine Json.WF.obj (by decide) ?_
    intro kv hkv
    rcases List.mem_cons.mp hkv with rfl | hkv2
    · exact Json.WF.num 1
    · rcases List.mem_cons.mp hkv2 with rfl | hkv3
      · refine Json.WF.arr ?_
        intro x hx
        rcases List.mem_cons.mp hx with rfl | hx2
        · exact Json.WF.str "x"
        · rcases List.mem_cons.mp hx2 with rfl | hx3
          · refine Json.WF.obj (by decide) ?_
            intro kv2 hkv2
            rcases List.mem_cons.mp hkv2 with rfl | h
            · exact Json.WF.null
            · cases h
          · cases hx3
      · cases hkv3)

theorem changeInvariant_changedRec (k : String) (nv ov : Json) (h : nv ≠ ov) :
    changeInvariant (changedRec k nv ov) := by
  refine ⟨?_, ?_, ?_⟩ <;> intro hop
  · exact absurd hop (by simp [changedRec, dictGet])
  · exact absurd hop (by simp [changedRec, dictGet])
  · exact ⟨nv, ov, rfl, rfl, h⟩

theorem changeInvariant_addedRec (k : String) (v : Json) :
    changeInvariant (addedRec k v) := by
  refine ⟨?_, ?_, ?_⟩ <;> intro hop
  · exact ⟨rfl, rfl⟩
  · exact absurd hop (by simp [addedRec, dictGet])
  · exact absurd hop (by simp [addedRec, dictGet])

theorem changeInvariant_removedRec (k : String) (v : Json) :
    changeInvariant (removedRec k v) := by
  refine ⟨?_, ?_, ?_⟩ <;> intro hop
  · exact absurd hop (by simp [removedRec, dictGet])
  · exact ⟨rfl, rfl⟩
  · exact absurd hop (by simp [removedRec, dictGet])

theorem childDiffStep_invariant (f : Nat)
    (ih : ∀ (o n : Json) (p : String) (r : PyDict),
      r ∈ compare_dictsF f o n p → changeInvariant r)
    (o n : Json) (q : String) (r : PyDict)
    (hr : r ∈ childDiffStep (compare_dictsF f) o n q) : changeInvariant r := by
  unfold childDiffStep at hr
  have hscal : ∀ (o2 n2 : Json) (p2 : String),
      r ∈ (if Json.beq o2 n2 then ([] : List PyDict) else [changedRec p2 n2 o2]) →
      changeInvariant r := by
    intro o2 n2 p2 hmem
    by_cases hb : Json.beq o2 n2
    · rw [if_pos hb] at hmem; cases hmem
    · rw [if_neg hb] at hmem
      rcases List.mem_singleton.mp hmem with rfl
      refine changeInvariant_changedRec _ _ _ ?_
      intro he
      exact hb (he ▸ json_beq_refl o2)
  cases o <;> cases n <;> first
    | exact ih _ _ _ r hr
    | exact hscal _ _ _ hr

theorem diffFieldsStep_invariant (f : Nat)
    (ih : ∀ (o n : Json) (p : String) (r : PyDict),
      r ∈ compare_dictsF f o n p → changeInvariant r)
    (os ns : PyDict) (p : String) (r : PyDict)
    (hr : r ∈ diffFieldsStep (compare_dictsF f) os ns p) : changeInvariant r := by
  unfold diffFieldsStep at hr
  rcases List.mem_append.mp hr with h1 | h2
  · obtain ⟨kv, _, hin⟩ := List.mem_flatMap.mp h1
    cases hg : dictGet ns kv.1 with
    | some nv =>
        rw [hg] at hin
        exact childDiffStep_invariant f ih _ _ _ r hin
    | none =>
        rw [hg] at hin
        rcases List.mem_singleton.mp hin with rfl
        exact changeInvariant_removedRec _ _
  · obtain ⟨kv, _, hin⟩ := List.mem_filterMap.mp h2
    by_cases hs : (dictGet os kv.1).isSome
    · simp [hs] at hin
    · simp [hs] at hin
      rcases hin with rfl
      exact changeInvariant_addedRec _ _

theorem diffElemsStep_invariant (f : Nat)
    (ih : ∀ (o n : Json) (p : String) (r : PyDict),
      r ∈ compare_dictsF f o n p → changeInvariant r)
    (xs ys : List Json) (p : String) (r : PyDict)
    (hr : r ∈ diffElemsStep (compare_dictsF f) xs ys p) : changeInvariant r := by
  unfold diffElemsStep at hr
  rcases List.mem_append.mp hr with h1 | h2
  · rcases List.mem_append.mp h1 with h3 | h4
    · obtain ⟨iz, _, hin⟩ := List.mem_flatMap.mp h3
      exact childDiffStep_invariant f ih _ _ _ r hin
    · obtain ⟨iv, _, hin⟩ := List.mem_map.mp h4
      rcases hin with rfl
      exact changeInvariant_addedRec _ _
  · obtain ⟨iv, _, hin⟩ := List.mem_map.mp h2
    rcases hin with rfl
    exact changeInvariant_removedRec _ _

/-- Every record the recursive differ emits satisfies the operation
invariant, at every fuel. -/
theorem compare_dictsF_invariant : ∀ (f : Nat) (o n : Json) (p : String) (r : PyDict),
    r ∈ compare_dictsF f o n p → changeInvariant r := by
  intro f
  induction f with
  | zero => intro o n p r h; cases h
  | succ f ih =>
      intro o n p r h
      have hscal : ∀ (o2 n2 : Json) (p2 : String),
          r ∈ (if Json.beq o2 n2 then ([] : List PyDict) else [changedRec p2 n2 o2]) →
          changeInvariant r := by
        intro o2 n2 p2 hmem
        by_cases hb : Json.beq o2 n2
        · rw [if_pos hb] at hmem; cases hmem
        · rw [if_neg hb] at hmem
          rcases List.mem_singleton.mp hmem with rfl
          refine changeInvariant_changedRec _ _ _ ?_
          intro he
          exact hb (he ▸ json_beq_refl o2)
      unfold compare_dictsF at h
      cases o <;> cases n <;> first
        | exact diffFieldsStep_invariant f ih _ _ _ r h
        | exact diffElemsStep_invariant f ih _ _ _ r h
        | exact hscal _ _ _ h

/-- C1 counterexample: on the spec's entity-index scenario the comparison
layer emits one added record that carries no value field at all — not the
entity subtree — and that record violates the operation invariant. -/
theorem compare_orders_entity_record_cex :
    compare_orders [Json.obj [("v", Json.num 1)]]
        [Json.obj [("v", Json.num 1)], Json.obj [("v", Json.num 2)]] =
      [[("operation", Json.str "added"), ("key", Json.str "1")]] ∧
    dictGet [("operation", Json.str "added"), ("key", Json.str "1")] "value" = none ∧
    ¬ changeInvariant [("operation", Json.str "added"), ("key", Json.str "1")] := by
  refine ⟨by decide, rfl, ?_⟩
  intro hinv
  have h1 := hinv.1 rfl
  simp [dictGet] at h1

/-- C1 amended: every record the recursive field differ emits satisfies
the operation invariant, while the entity-level records of compare_orders
carry only the operation and the index as key; in particular the
entity-index scenario yields exactly one added record with key 1 and no
value payload. -/
theorem compare_layer_invariant (o n : Json) (p : String) (r : PyDict)
    (h : r ∈ compare_dicts o n p) :
    changeInvariant r ∧
    compare_orders [Json.obj [("v", Json.num 1)]]
        [Json.obj [("v", Json.num 1)], Json.obj [("v", Json.num 2)]] =
      [[("operation", Json.str "added"), ("key", Json.str "1")]] :=
  ⟨compare_dictsF_invariant (Json.size o) o n p r h, by decide⟩

/-- C1 witness: a field-level changed record emitted by the differ
satisfies the invariant. -/
theorem compare_layer_invariant_witness :
    changeInvariant (changedRec "a" (Json.num 2) (Json.num 1)) ∧
    compare_orders [Json.obj [("v", Json.num 1)]]
        [Json.obj [("v", Json.num 1)], Json.obj [("v", Json.num 2)]] =
      [[("operation", Json.str "added"), ("key", Json.str "1")]] :=
  compare_layer_invariant (Json.obj [("a", Json.num 1)]) (Json.obj [("a", Json.num 2)])
    "" (changedRec "a" (Json.num 2) (Json.num 1)) (by decide)

theorem lookup_append (k : String) (l1 l2 : List (String × String)) :
    List.lookup k (l1 ++ l2) =
      match List.lookup k l1 with
      | some v => some v
      | none => List.lookup k l2 := by
  induction l1 with
  | nil => simp
  | cons kv rest ih =>
      cases h : (k == kv.1) <;> simp [List.lookup, h, ih]

theorem dictGet_nullifyAnon_key (c : PyDict) :
    dictGet (nullifyAnon c) "key" = dictGet c "key" := by
  unfold nullifyAnon
  rw [dictGet_nullifyField_ne _ _ _ (by decide),
      dictGet_nullifyField_ne _ _ _ (by decide)]

theorem projection_label_of_emitted (ig : List String) (T A D : List (String × String))
    (share dm : Bool) (ts : Json) (order_id key0 : String) (change out : PyDict)
    (hk : dictGet change "key" = some (Json.str key0))
    (hout : project_change (ProjPolicy.mk ig T A D false dm share)
        order_id ts change = some out) :
    ∃ label, List.lookup ((splitFirst key0).2.getD key0) D = some label ∧
      dictGet out "key" = some (Json.str label) := by
  unfold project_change at hout
  rw [hk] at hout
  by_cases hseg : (splitFirst key0).1 = order_id
  · simp only [hseg, if_pos rfl, Bool.false_eq_true, if_false] at hout
    set key := (splitFirst key0).2.getD key0 with hkey
    by_cases hig : (ig.any fun pre => startsWithB key pre) = true
    · rw [if_pos hig] at hout; cases hout
    · rw [if_neg hig] at hout
      by_cases hcond : ((!dm && (List.lookup key T).isNone &&
          (List.lookup key A).isNone) = true)
      · rw [if_pos hcond] at hout; cases hout
      · rw [if_neg hcond] at hout
        cases hD : List.lookup key D with
        | none => rw [hD] at hout; cases hout
        | some label =>
            rw [hD] at hout
            refine ⟨label, rfl, ?_⟩
            rw [← Option.some_inj.mp hout]
            by_cases hsh : (share && (List.lookup key A).isSome) = true
            · rw [if_pos hsh, dictGet_finishChange_key, dictGet_nullifyAnon_key,
                dictGet_dictSet_self]
            · rw [if_neg hsh, dictGet_finishChange_key, dictGet_dictSet_self]
  · simp [hseg] at hout

theorem projection_allowlist_iff (ig : List String) (T A : List (String × String))
    (share : Bool) (ts : Json) (order_id key0 : String) (change : PyDict)
    (hk : dictGet change "key" = some (Json.str key0))
    (hseg : (splitFirst key0).1 = order_id) :
    ((project_change (ProjPolicy.mk ig T A (T ++ A) false false share)
        order_id ts change).isSome ↔
      ((∀ pre ∈ ig, startsWithB ((splitFirst key0).2.getD key0) pre = false) ∧
        ((List.lookup ((splitFirst key0).2.getD key0) T).isSome ∨
         (List.lookup ((splitFirst key0).2.getD key0) A).isSome))) := by
  unfold project_change
  rw [hk]
  simp only [hseg, if_pos rfl]
  simp only [if_true, Bool.false_eq_true, if_false, Bool.not_false, Bool.true_and]
  set key := (splitFirst key0).2.getD key0 with hkey
  by_cases hig : (ig.any fun pre => startsWithB key pre) = true
  · rw [if_pos hig]
    simp only [Option.isSome_none, Bool.false_eq_true, false_iff]
    rintro ⟨hall, -⟩
    obtain ⟨pre, hpre, hsw⟩ := List.any_eq_true.mp hig
    rw [hall pre hpre] at hsw
    cases hsw
  · rw [if_neg hig]
    have hig2 : ∀ pre ∈ ig, startsWithB key pre = false := by
      intro pre hpre
      cases hsw : startsWithB key pre
      · rfl
      · exact absurd (List.any_eq_true.mpr ⟨pre, hpre, hsw⟩) hig
    by_cases hcond : ((List.lookup key T).isNone && (List.lookup key A).isNone) = true
    · rw [if_pos hcond]
      simp only [Option.isSome_none, Bool.false_eq_true, false_iff]
      rintro ⟨-, hor⟩
      obtain ⟨hT, hA⟩ : List.lookup key T = none ∧ List.lookup key A = none := by
        simpa using hcond
      rcases hor with h | h
      · rw [hT] at h; cases h
      · rw [hA] at h; cases h
    · rw [if_neg hcond]
      cases hT2 : List.lookup key T with
      | some v =>
          rw [lookup_append, hT2]
          simp only [Option.isSome_some, true_iff]
          refine ⟨hig2, ?_⟩
          simp [hT2]
      | none =>
          cases hA2 : List.lookup key A with
          | some v =>
              rw [lookup_append, hT2, hA2]
              simp only [Option.isSome_some, true_iff]
              refine ⟨hig2, ?_⟩
              simp [hA2]
          | none =>
              exfalso
              apply hcond
              simp [hT2, hA2]

/-- C3: with a non-verbose policy (all-keys off, details off, the details
table being the translation table joined with the anonymous table, as in
the module constants), a record surviving the entity filter is emitted
exactly when its stripped key escapes every ignored prefix and occurs in
the translation table or the anonymous set; an emitted record carries the
translation label as its key.  The spec's two-record example projects to
exactly the one labelled record. -/
theorem projection_allowlist (ig : List String) (T A : List (String × String))
    (share : Bool) (ts : Json) (order_id key0 : String) (change : PyDict)
    (hk : dictGet change "key" = some (Json.str key0))
    (hseg : (splitFirst key0).1 = order_id) :
    ((project_change (ProjPolicy.mk ig T A (T ++ A) false false share)
        order_id ts change).isSome ↔
      ((∀ pre ∈ ig, startsWithB ((splitFirst key0).2.getD key0) pre = false) ∧
        ((List.lookup ((splitFirst key0).2.getD key0) T).isSome ∨
         (List.lookup ((splitFirst key0).2.getD key0) A).isSome))) ∧
    (∀ out, project_change (ProjPolicy.mk ig T A (T ++ A) false false share)
        order_id ts change = some out →
      ∃ label, List.lookup ((splitFirst key0).2.getD key0) (T ++ A) = some label ∧
        dictGet out "key" = some (Json.str label)) ∧
    get_history_of_order_gen
        (ProjPolicy.mk [] [("a.b", "Label")] [] [("a.b", "Label")] false false false)
        [HistEntry.mk (Json.str "2024-01-01")
          [[("operation", Json.str "added"), ("key", Json.str "0.a.b")],
           [("operation", Json.str "added"), ("key", Json.str "0.a.c")]]] "0" =
      [[("operation", Json.str "added"), ("key", Json.str "Label"),
        ("timestamp", Json.str "2024-01-01")]] :=
  ⟨projection_allowlist_iff ig T A share ts order_id key0 change hk hseg,
   fun out hout =>
     projection_label_of_emitted ig T A (T ++ A) share false ts order_id key0
       change out hk hout,
   by decide⟩

/-- C3 witness: a translated record is emitted with its label. -/
theorem projection_allowlist_witness :
    ((project_change (ProjPolicy.mk [] [("a.b", "Label")] []
        ([("a.b", "Label")] ++ []) false false false)
        "0" (Json.str "2024-01-01") [("key", Json.str "0.a.b")]).isSome ↔
      ((∀ pre ∈ ([] : List String),
          startsWithB ((splitFirst "0.a.b").2.getD "0.a.b") pre = false) ∧
        ((List.lookup ((splitFirst "0.a.b").2.getD "0.a.b") [("a.b", "Label")]).isSome ∨
         (List.lookup ((splitFirst "0.a.b").2.getD "0.a.b") ([] : List (String × String))).isSome))) ∧
    (∀ out, project_change (ProjPolicy.mk [] [("a.b", "Label")] []
        ([("a.b", "Label")] ++ []) false false false)
        "0" (Json.str "2024-01-01") [("key", Json.str "0.a.b")] = some out →
      ∃ label, List.lookup ((splitFirst "0.a.b").2.getD "0.a.b")
          ([("a.b", "Label")] ++ []) = some label ∧
        dictGet out "key" = some (Json.str label)) ∧
    get_history_of_order_gen
        (ProjPolicy.mk [] [("a.b", "Label")] [] [("a.b", "Label")] false false false)
        [HistEntry.mk (Json.str "2024-01-01")
          [[("operation", Json.str "added"), ("key", Json.str "0.a.b")],
           [("operation", Json.str "added"), ("key", Json.str "0.a.c")]]] "0" =
      [[("operation", Json.str "added"), ("key", Json.str "Label"),
        ("timestamp", Json.str "2024-01-01")]] :=
  projection_allowlist [] [("a.b", "Label")] [] false (Json.str "2024-01-01")
    "0" "0.a.b" [("key", Json.str "0.a.b")] (by decide) (by decide)

theorem project_change_emit_shape (ig : List String) (T A D : List (String × String))
    (share dm : Bool) (ts : Json) (order_id key0 : String) (change out : PyDict)
    (hk : dictGet change "key" = some (Json.str key0))
    (hout : project_change (ProjPolicy.mk ig T A D false dm share)
        order_id ts change = some out) :
    ∃ label, List.lookup ((splitFirst key0).2.getD key0) D = some label ∧
      out = finishChange
        (if (share && (List.lookup ((splitFirst key0).2.getD key0) A).isSome) = true
         then nullifyAnon (dictSet change "key" (Json.str label))
         else dictSet change "key" (Json.str label)) ts := by
  unfold project_change at hout
  rw [hk] at hout
  by_cases hseg : (splitFirst key0).1 = order_id
  · simp only [hseg, if_pos rfl, Bool.false_eq_true, if_false] at hout
    set key := (splitFirst key0).2.getD key0 with hkey
    by_cases hig : (ig.any fun pre => startsWithB key pre) = true
    · rw [if_pos hig] at hout; cases hout
    · rw [if_neg hig] at hout
      by_cases hcond : ((!dm && (List.lookup key T).isNone &&
          (List.lookup key A).isNone) = true)
      · rw [if_pos hcond] at hout; cases hout
      · rw [if_neg hcond] at hout
        cases hD : List.lookup key D with
        | none => rw [hD] at hout; cases hout
        | some label =>
            rw [hD] at hout
            exact ⟨label, rfl, (Option.some_inj.mp hout).symm⟩
  · simp [hseg] at hout

theorem nullifyAnon_value_str (c : PyDict) (s : String)
    (h : dictGet c "value" = some (Json.str s)) :
    dictGet (nullifyAnon c) "value" = some Json.null := by
  unfold nullifyAnon
  rw [dictGet_nullifyField_ne _ _ _ (by decide)]
  unfold nullifyField
  rw [h, dictGet_dictSet_self]

theorem nullifyAnon_old_str (c : PyDict) (s : String)
    (h : dictGet c "old_value" = some (Json.str s)) :
    dictGet (nullifyAnon c) "old_value" = some Json.null := by
  unfold nullifyAnon
  set d := nullifyField c "value" with hd
  have h2 : dictGet d "old_value" = some (Json.str s) := by
    rw [hd, dictGet_nullifyField_ne _ _ _ (by decide)]
    exact h
  unfold nullifyField
  rw [h2]
  exact dictGet_dictSet_self d "old_value" Json.null

theorem nullifyAnon_value_obj (c : PyDict) (m : PyDict)
    (h : dictGet c "value" = some (Json.obj m)) :
    dictGet (nullifyAnon c) "value" = some (Json.obj m) := by
  unfold nullifyAnon
  rw [dictGet_nullifyField_ne _ _ _ (by decide)]
  unfold nullifyField
  rw [h]
  exact h

theorem finishChange_value_null (c : PyDict) (ts : Json)
    (h : dictGet c "value" = some Json.null) :
    dictGet (finishChange c ts) "value" = some Json.null := by
  unfold finishChange
  rw [dictGet_dictSet_ne _ _ _ _ (by decide),
      dictGet_convertField_ne _ _ _ (by decide)]
  unfold convertField
  rw [h]
  exact h

theorem finishChange_value_obj (c : PyDict) (m : PyDict) (ts : Json)
    (h : dictGet c "value" = some (Json.obj m)) :
    dictGet (finishChange c ts) "value" = some (Json.obj m) := by
  unfold finishChange
  rw [dictGet_dictSet_ne _ _ _ _ (by decide),
      dictGet_convertField_ne _ _ _ (by decide)]
  unfold convertField
  rw [h]
  exact h

theorem finishChange_old_null (c : PyDict) (ts : Json)
    (h : dictGet c "old_value" = some Json.null) :
    dictGet (finishChange c ts) "old_value" = some Json.null := by
  unfold finishChange
  rw [dictGet_dictSet_ne _ _ _ _ (by decide)]
  set d := convertField c "value" with hd
  have h2 : dictGet d "old_value" = some Json.null := by
    rw [hd, dictGet_convertField_ne _ _ _ (by decide)]
    exact h
  unfold convertField
  rw [h2]
  exact h2

/-- C4 counterexample: in all-keys (verbose) mode the redaction step is
skipped entirely, so with redact on, a changed record at an anonymous key
with string payloads is emitted with its string value intact, not null —
the redaction guarantee does not hold regardless of the other policy
flags. -/
theorem redaction_skipped_verbose_cex :
    project_change (ProjPolicy.mk [] [] [("a.vin", "VIN")] [("a.vin", "VIN")]
        true false true) "0" (Json.str "2024-01-01")
        [("operation", Json.str "changed"), ("key", Json.str "0.a.vin"),
         ("value", Json.str "ABC"), ("old_value", Json.str "XYZ")] =
      some [("operation", Json.str "changed"), ("key", Json.str "0.a.vin"),
            ("value", Json.str "ABC"), ("old_value", Json.str "XYZ"),
            ("timestamp", Json.str "2024-01-01")] ∧
    dictGet [("operation", Json.str "changed"), ("key", Json.str "0.a.vin"),
             ("value", Json.str "ABC"), ("old_value", Json.str "XYZ"),
             ("timestamp", Json.str "2024-01-01")] "value" ≠ some Json.null :=
  ⟨by decide, by decide⟩

/-- C4 amended: in non-verbose mode, for every record that reaches the
output whose original stripped key is in the anonymous set and with
redact on, string-typed value and old_value payloads are replaced by
null, while a structured (mapping) value passes through unredacted. -/
theorem redaction_nonverbose (ig : List String) (T A D : List (String × String))
    (dm : Bool) (ts : Json) (order_id key0 : String) (change out : PyDict)
    (hk : dictGet change "key" = some (Json.str key0))
    (hanon : (List.lookup ((splitFirst key0).2.getD key0) A).isSome = true)
    (hout : project_change (ProjPolicy.mk ig T A D false dm true)
        order_id ts change = some out) :
    (∀ s, dictGet change "value" = some (Json.str s) →
        dictGet out "value" = some Json.null) ∧
    (∀ s, dictGet change "old_value" = some (Json.str s) →
        dictGet out "old_value" = some Json.null) ∧
    (∀ m, dictGet change "value" = some (Json.obj m) →
        dictGet out "value" = some (Json.obj m)) := by
  obtain ⟨label, hD, hshape⟩ :=
    project_change_emit_shape ig T A D true dm ts order_id key0 change out hk hout
  rw [if_pos (by simp [hanon])] at hshape
  subst hshape
  refine ⟨?_, ?_, ?_⟩
  · intro s hv
    apply finishChange_value_null
    apply nullifyAnon_value_str _ s
    rw [dictGet_dictSet_ne _ _ _ _ (by decide)]
    exact hv
  · intro s hv
    apply finishChange_old_null
    apply nullifyAnon_old_str _ s
    rw [dictGet_dictSet_ne _ _ _ _ (by decide)]
    exact hv
  · intro m hv
    apply finishChange_value_obj
    apply nullifyAnon_value_obj
    rw [dictGet_dictSet_ne _ _ _ _ (by decide)]
    exact hv

/-- C4 witness: a changed record at an anonymous key, projected in
non-verbose share mode, has both payloads nulled. -/
theorem redaction_nonverbose_witness :
    (∀ s, dictGet [("operation", Json.str "changed"), ("key", Json.str "0.a.vin"),
         ("value", Json.str "ABC"), ("old_value", Json.str "XYZ")] "value" =
        some (Json.str s) →
      dictGet [("operation", Json.str "changed"), ("key", Json.str "VIN"),
         ("value", Json.null), ("old_value", Json.null),
         ("timestamp", Json.str "2024-01-01")] "value" = some Json.null) ∧
    (∀ s, dictGet [("operation", Json.str "changed"), ("key", Json.str "0.a.vin"),
         ("value", Json.str "ABC"), ("old_value", Json.str "XYZ")] "old_value" =
        some (Json.str s) →
      dictGet [("operation", Json.str "changed"), ("key", Json.str "VIN"),
         ("value", Json.null), ("old_value", Json.null),
         ("timestamp", Json.str "2024-01-01")] "old_value" = some Json.null) ∧
    (∀ m, dictGet [("operation", Json.str "changed"), ("key", Json.str "0.a.vin"),
         ("value", Json.str "ABC"), ("old_value", Json.str "XYZ")] "value" =
        some (Json.obj m) →
      dictGet [("operation", Json.str "changed"), ("key", Json.str "VIN"),
         ("value", Json.null), ("old_value", Json.null),
         ("timestamp", Json.str "2024-01-01")] "value" = some (Json.obj m)) :=
  redaction_nonverbose [] [] [("a.vin", "VIN")] [("a.vin", "VIN")] false
    (Json.str "2024-01-01") "0" "0.a.vin"
    [("operation", Json.str "changed"), ("key", Json.str "0.a.vin"),
     ("value", Json.str "ABC"), ("old_value", Json.str "XYZ")]
    [("operation", Json.str "changed"), ("key", Json.str "VIN"),
     ("value", Json.null), ("old_value", Json.null),
     ("timestamp", Json.str "2024-01-01")]
    (by decide) (by decide) (by decide)
